import Mathlib

/-!
Verification development for the `files-cleanup` directory scanner.

The scanner walks a directory tree depth-first, flags empty files and empty
directories, enforces time / file-count / depth / fan-out budgets, hashes the
content of files whose extension is in a common-extension allow-list, and
derives duplicate groups from the resulting (hash → paths) index.

The embedding below mirrors the TypeScript source:
* the filesystem is a static tree (`FSEntry` / `FSList`);
* `Date.now()` is modelled by a clock stream `ScanCtx.clock` indexed by the
  number of calls made so far (`ScanState.ticks`);
* the MD5 streaming digest is modelled as an injected capability
  `ScanCtx.hashFn` on a file's byte content;
* the process-global mutable hash map and the filesystem read operations are
  threaded explicitly through `ScanState`;
* the per-frame `filesProcessed` counter is passed by value into recursive
  calls, exactly as a JavaScript number argument is.
-/

/-- Hard ceiling on the number of processed entries per scan (source constant). -/
def MAX_FILES_TO_PROCESS : Int := 1000

/-- Wall-clock budget for one scan, in milliseconds (source constant). -/
def MAX_EXECUTION_TIME_MS : Nat := 5000

/-- Hard ceiling on the accepted recursion depth (source constant). -/
def MAX_DEPTH : Int := 10

/-- Fan-out cap: entries processed per directory (source constant). -/
def MAX_ITEMS_PER_DIR : Nat := 100

/-- Extension allow-list for content hashing and duplicate filtering (source constant). -/
def COMMON_FILE_EXTENSIONS : List String :=
  ["txt", "js", "html", "css", "json", "xml", "md", "pdf", "jpg", "jpeg",
   "png", "gif", "bmp", "svg", "mp3", "wav", "ogg", "flac", "mp4", "avi",
   "mkv", "doc", "docx", "xls", "xlsx", "ppt", "pptx"]

/-- Tests whether `needle` occurs at the head of `hay`. -/
def leadsWith : List Char → List Char → Bool
  | [], _ => true
  | _ :: _, [] => false
  | a :: as, b :: bs => a == b && leadsWith as bs

/-- Tests whether `needle` occurs contiguously anywhere in `hay`. -/
def containsSub (hay needle : List Char) : Bool :=
  match hay with
  | [] => needle.isEmpty
  | _ :: t => leadsWith needle hay || containsSub t needle

/-- Model of JavaScript `String.prototype.includes`: substring containment. -/
def includesStr (s pat : String) : Bool :=
  containsSub s.toList pat.toList

/-- Characters of a path after its last `/` (the basename used by `path.extname`). -/
def lastComponent (l : List Char) : List Char :=
  l.foldl (fun acc c => if c = '/' then [] else acc ++ [c]) []

/-- Suffix of a character list starting at its last `.`, or `[]` when it has no dot. -/
def lastDotSuffix : List Char → List Char
  | [] => []
  | c :: cs =>
    let r := lastDotSuffix cs
    if r = [] then (if c = '.' then c :: cs else []) else r

/-- Model of `path.extname(p).slice(1).toLowerCase()`: the lowercased extension of
the basename of `p`, without the dot; a dot at the start of the basename does
not count (`.gitignore` has no extension). -/
def extOf (p : String) : String :=
  let base := lastComponent p.toList
  let e := match base with
    | [] => []
    | _ :: cs => lastDotSuffix cs
  String.mk ((e.drop 1).map Char.toLower)

mutual
/-- A filesystem entry as the walker can observe it.
`file` carries the byte content and an optional stream-read error;
`dir` carries an optional listing error (`readdirSync` throwing) and children;
`other` is a non-regular entry (e.g. a symlink) with its `lstat` size;
`statErr` is an entry whose `lstatSync` throws. -/
inductive FSEntry where
  | file (name : String) (content : List Nat) (readErr : Option String)
  | dir (name : String) (listErr : Option String) (children : FSList)
  | other (name : String) (size : Nat)
  | statErr (name : String) (msg : String)

/-- A directory listing, as a cons-list of entries (listing order). -/
inductive FSList where
  | nil
  | cons (e : FSEntry) (t : FSList)
end

/-- Name of an entry, as `readdirSync` lists it. -/
def entryName : FSEntry → String
  | .file nm _ _ => nm
  | .dir nm _ _ => nm
  | .other nm _ => nm
  | .statErr nm _ => nm

/-- The `stats.size` reported by `lstatSync` for a non-directory entry. -/
def entrySize : FSEntry → Nat
  | .file _ c _ => c.length
  | .dir _ _ _ => 0
  | .other _ sz => sz
  | .statErr _ _ => 0

/-- Number of entries in a listing. -/
def FSList.length : FSList → Nat
  | .nil => 0
  | .cons _ t => FSList.length t + 1

/-- Concatenation of listings. -/
def FSList.append : FSList → FSList → FSList
  | .nil, ys => ys
  | .cons x xs, ys => .cons x (FSList.append xs ys)

/-- Conversion from an ordinary list. -/
def FSList.ofList : List FSEntry → FSList
  | [] => .nil
  | e :: t => .cons e (FSList.ofList t)

/-- Ambient capabilities of one scan: the clock stream backing `Date.now()`
(indexed by the number of calls made so far) and the content digest. -/
structure ScanCtx where
  clock : Nat → Nat
  hashFn : List Nat → String

/-- Mutable state threaded through a scan: the process-global duplicate index
(insertion-ordered), the log of filesystem reads issued, and the number of
`Date.now()` calls made so far. -/
structure ScanState where
  fileHashes : List (String × List String)
  reads : List String
  ticks : Nat
deriving DecidableEq

/-- Consume one `Date.now()` call. -/
def tickSt (st : ScanState) : ScanState :=
  { st with ticks := st.ticks + 1 }

/-- Record one filesystem read operation. -/
def logRead (st : ScanState) (r : String) : ScanState :=
  { st with reads := st.reads ++ [r] }

/-- Replace the duplicate index. -/
def withHashes (st : ScanState) (h : List (String × List String)) : ScanState :=
  { st with fileHashes := h }

/-- Model of `fileHashes.has/set/get(...).push`: append `p` to the path list of
`h`, creating the group at the end of the map when absent (JavaScript `Map`
preserves insertion order). -/
def insertHash (idx : List (String × List String)) (h : String) (p : String) :
    List (String × List String) :=
  if idx.any (fun e => e.1 == h) then
    idx.map (fun e => if e.1 == h then (e.1, e.2 ++ [p]) else e)
  else
    idx ++ [(h, [p])]

/-- Model of `calculateFileHash`: `lstat` the path; return `""` for a
non-regular file; otherwise stream the bytes through the digest, propagating a
stream error as a failure (`.error`) rather than an empty identity. -/
def calculateFileHash (ctx : ScanCtx) (itemPath : String) (e : FSEntry)
    (st : ScanState) : Except String String × ScanState :=
  let st := logRead st ("lstat:" ++ itemPath)
  match e with
  | .statErr _ msg => (.error msg, st)
  | .file _ content readErr =>
    let st := logRead st ("read:" ++ itemPath)
    match readErr with
    | some msg => (.error msg, st)
    | none => (.ok (ctx.hashFn content), st)
  | _ => (.ok "", st)

/-- The checks performed on entry to each directory visit, in source order:
exclusion markers, elapsed time, file-count budget, depth budget; when all
pass, the `existsSync` read is issued. `some fs` means "return `fs` early". -/
def entryChecks (ctx : ScanCtx) (dirPath : String) (currentDepth maxDepth : Int)
    (startTime : Nat) (maxFiles filesProcessed : Int) (st : ScanState) :
    Option (List String) × ScanState :=
  if includesStr dirPath "node_modules" || includesStr dirPath ".git" then
    (some [], st)
  else
    let now := ctx.clock st.ticks
    let st := tickSt st
    if MAX_EXECUTION_TIME_MS < now - startTime then
      (some [dirPath ++ " (execution time limit reached)"], st)
    else if maxFiles ≤ filesProcessed then
      (some [dirPath ++ " (max files limit reached)"], st)
    else if maxDepth < currentDepth then
      (some [dirPath ++ " (max depth reached)"], st)
    else
      (none, logRead st ("exists:" ++ dirPath))

/-- The re-checks performed after each processed entry: elapsed time, then the
file count. `some f` means "push finding `f` and break out of the loop". -/
def afterChecks (ctx : ScanCtx) (dirPath : String) (startTime : Nat)
    (maxFiles filesProcessed : Int) (st : ScanState) :
    Option String × ScanState :=
  let now := ctx.clock st.ticks
  let st := tickSt st
  if MAX_EXECUTION_TIME_MS < now - startTime then
    (some (dirPath ++ " (execution time limit reached during processing)"), st)
  else if maxFiles ≤ filesProcessed then
    (some (dirPath ++ " (max files limit reached during processing)"), st)
  else
    (none, st)

/-- The per-directory loop of `findUselessFiles` over the first `k` listed
entries (`k` starts at the fan-out cap, mirroring
`items.slice(0, MAX_ITEMS_PER_DIR)`): increment the per-frame counter,
`lstat` the entry, recurse into directories (the inlined block is the body of
the recursive `findUselessFiles` call for the subdirectory, which always
exists), flag empty files, hash allow-listed files, then re-check the budgets.
A stat or hash failure yields one per-entry `error:` finding and the loop
continues with the next entry. -/
def walkLoop (ctx : ScanCtx) (dirPath : String) (k : Nat) (items : FSList)
    (currentDepth maxDepth : Int) (startTime : Nat)
    (maxFiles filesProcessed : Int) (st : ScanState) :
    List String × ScanState :=
  match items with
  | .nil => ([], st)
  | .cons item rest =>
    match k with
    | 0 => ([], st)
    | k + 1 =>
      let itemPath := dirPath ++ "/" ++ entryName item
      let fp := filesProcessed + 1
      let st := logRead st ("lstat:" ++ itemPath)
      match item with
      | .statErr nm msg =>
        let r := walkLoop ctx dirPath k rest currentDepth maxDepth startTime maxFiles fp st
        (((dirPath ++ "/" ++ nm) ++ " (error: " ++ msg ++ ")") :: r.1, r.2)
      | .dir nm le cs =>
        let subPath := dirPath ++ "/" ++ nm
        let sub :=
          match entryChecks ctx subPath (currentDepth + 1) maxDepth startTime maxFiles fp st with
          | (some fs, st) => (fs, st)
          | (none, st) =>
            let st := logRead st ("readdir:" ++ subPath)
            match le with
            | some msg => ([subPath ++ " (error: " ++ msg ++ ")"], st)
            | none =>
              if FSList.length cs = 0 then
                ([subPath ++ " (empty directory)"], st)
              else
                let pre :=
                  if MAX_ITEMS_PER_DIR < FSList.length cs then
                    [subPath ++ " (limited scan: 100/" ++ toString (FSList.length cs) ++ " items)"]
                  else []
                let r := walkLoop ctx subPath MAX_ITEMS_PER_DIR cs (currentDepth + 1) maxDepth startTime maxFiles fp st
                (pre ++ r.1, r.2)
        let ac := afterChecks ctx dirPath startTime maxFiles fp sub.2
        match ac.1 with
        | some f => (sub.1 ++ [f], ac.2)
        | none =>
          let r := walkLoop ctx dirPath k rest currentDepth maxDepth startTime maxFiles fp ac.2
          (sub.1 ++ r.1, r.2)
      | _ =>
        let pre := if entrySize item = 0 then [itemPath ++ " (empty file)"] else []
        if COMMON_FILE_EXTENSIONS.contains (extOf itemPath) then
          let hr := calculateFileHash ctx itemPath item st
          match hr.1 with
          | .error e =>
            let r := walkLoop ctx dirPath k rest currentDepth maxDepth startTime maxFiles fp hr.2
            ((pre ++ [itemPath ++ " (error: " ++ e ++ ")"]) ++ r.1, r.2)
          | .ok h =>
            let st2 := if h = "" then hr.2 else withHashes hr.2 (insertHash hr.2.fileHashes h itemPath)
            let ac := afterChecks ctx dirPath startTime maxFiles fp st2
            match ac.1 with
            | some f => (pre ++ [f], ac.2)
            | none =>
              let r := walkLoop ctx dirPath k rest currentDepth maxDepth startTime maxFiles fp ac.2
              (pre ++ r.1, r.2)
        else
          let ac := afterChecks ctx dirPath startTime maxFiles fp st
          match ac.1 with
          | some f => (pre ++ [f], ac.2)
          | none =>
            let r := walkLoop ctx dirPath k rest currentDepth maxDepth startTime maxFiles fp ac.2
            (pre ++ r.1, r.2)

/-- Visit of one existing directory (`findUselessFiles` on a directory path):
the entry checks, the `readdirSync` call with its error policy, the
empty-directory finding, the fan-out cap, then the loop. `le` is the
directory's listing error and `cs` its children. -/
def walkD (ctx : ScanCtx) (dirPath : String) (le : Option String) (cs : FSList)
    (currentDepth maxDepth : Int) (startTime : Nat)
    (maxFiles filesProcessed : Int) (st : ScanState) :
    List String × ScanState :=
  match entryChecks ctx dirPath currentDepth maxDepth startTime maxFiles filesProcessed st with
  | (some fs, st) => (fs, st)
  | (none, st) =>
    let st := logRead st ("readdir:" ++ dirPath)
    match le with
    | some msg => ([dirPath ++ " (error: " ++ msg ++ ")"], st)
    | none =>
      if FSList.length cs = 0 then
        ([dirPath ++ " (empty directory)"], st)
      else
        let pre :=
          if MAX_ITEMS_PER_DIR < FSList.length cs then
            [dirPath ++ " (limited scan: 100/" ++ toString (FSList.length cs) ++ " items)"]
          else []
        let r := walkLoop ctx dirPath MAX_ITEMS_PER_DIR cs currentDepth maxDepth startTime maxFiles filesProcessed st
        (pre ++ r.1, r.2)

/-- Model of `findUselessFiles(dirPath, currentDepth, maxDepth, startTime,
maxFiles, filesProcessed)`. `entry?` is what the filesystem holds at `dirPath`
(`none` when the path does not exist). A nonexistent path makes the call throw
(`.error`), the terminal failure of the claim on the root directory. -/
def findUselessFiles (ctx : ScanCtx) (dirPath : String) (entry? : Option FSEntry)
    (currentDepth maxDepth : Int) (startTime : Nat)
    (maxFiles filesProcessed : Int) (st : ScanState) :
    Except String (List String) × ScanState :=
  match entry? with
  | some (.dir _ le cs) =>
    let r := walkD ctx dirPath le cs currentDepth maxDepth startTime maxFiles filesProcessed st
    (.ok r.1, r.2)
  | some _ =>
    match entryChecks ctx dirPath currentDepth maxDepth startTime maxFiles filesProcessed st with
    | (some fs, st) => (.ok fs, st)
    | (none, st) =>
      (.ok [dirPath ++ " (error: not a directory)"], logRead st ("readdir:" ++ dirPath))
  | none =>
    match entryChecks ctx dirPath currentDepth maxDepth startTime maxFiles filesProcessed st with
    | (some fs, st) => (.ok fs, st)
    | (none, st) => (.error ("Directory does not exist: " ++ dirPath), st)

/-- Model of `findDuplicateFiles(includeExtensions)`: walk the duplicate index
in insertion order; for every group of at least two paths the first path is the
original and every later path yields one `<dupe> (duplicate of <original>)`
relation, kept when the allow-list is empty or contains both lowercased
extensions. -/
def findDuplicateFiles (includeExtensions : List String)
    (fileHashes : List (String × List String)) : List String :=
  fileHashes.foldl (fun duplicates grp =>
    match grp.2 with
    | original :: dupe :: rest =>
      (dupe :: rest).foldl (fun acc d =>
        if includeExtensions.length == 0
            || (includeExtensions.contains (extOf original)
                && includeExtensions.contains (extOf d)) then
          acc ++ [d ++ " (duplicate of " ++ original ++ ")"]
        else acc) duplicates
    | _ => duplicates) []

/-- Specification-level duplicate derivation, written from the spec wording of
`deriveGroups(allowedExtensions)`: for every identity with at least two paths,
the first inserted path is the original; every other path in that group
produces one duplicate relation, filtered so that both the original's and the
duplicate's extensions must be in `allowedExtensions` (an empty allow-list
means no filter). -/
def deriveGroups (allowedExtensions : List String)
    (index : List (String × List String)) : List String :=
  (index.map (fun grp =>
    match grp.2 with
    | original :: dupe :: rest =>
      (dupe :: rest).filterMap (fun d =>
        if allowedExtensions.length == 0
            || (allowedExtensions.contains (extOf original)
                && allowedExtensions.contains (extOf d)) then
          some (d ++ " (duplicate of " ++ original ++ ")")
        else none)
    | _ => [])).flatten

/-- Model of the `find-useless-files` tool handler: clear the process-global
duplicate index, capture `startTime`, clamp the requested limits with
`Math.min`, run the walk from depth 0 with a fresh per-frame counter, derive
duplicates, and render the response blocks. Returns the response texts and the
post-scan contents of the process-global index. -/
def findUselessFilesTool (ctx : ScanCtx) (directory : String)
    (root? : Option FSEntry) (maxDepth maxFiles : Int)
    (globalHashes : List (String × List String)) :
    List String × List (String × List String) :=
  -- fileHashes.clear(): the prior global contents are discarded
  let _cleared := globalHashes
  let startTime := ctx.clock 0
  let actualMaxDepth := min maxDepth MAX_DEPTH
  let actualMaxFiles := min maxFiles MAX_FILES_TO_PROCESS
  match findUselessFiles ctx directory root? 0 actualMaxDepth startTime actualMaxFiles 0 ⟨[], [], 1⟩ with
  | (.error msg, st) => (["Error scanning directory: " ++ msg], st.fileHashes)
  | (.ok fs, st) =>
    let duplicates := findDuplicateFiles COMMON_FILE_EXTENSIONS st.fileHashes
    if fs.length == 0 && duplicates.length == 0 then
      (["No useless files found in: " ++ directory], st.fileHashes)
    else
      (["Found " ++ toString fs.length ++ " potentially useless files/directories in: " ++ directory,
        String.intercalate "\n" fs,
        "Found " ++ toString duplicates.length ++ " duplicate files in: " ++ directory,
        String.intercalate "\n" duplicates], st.fileHashes)

/-! ### Basic state lemmas -/

@[simp] lemma tickSt_fileHashes (st : ScanState) : (tickSt st).fileHashes = st.fileHashes := rfl

@[simp] lemma tickSt_reads (st : ScanState) : (tickSt st).reads = st.reads := rfl

@[simp] lemma tickSt_ticks (st : ScanState) : (tickSt st).ticks = st.ticks + 1 := rfl

@[simp] lemma logRead_fileHashes (st : ScanState) (r : String) : (logRead st r).fileHashes = st.fileHashes := rfl

@[simp] lemma logRead_ticks (st : ScanState) (r : String) : (logRead st r).ticks = st.ticks := rfl

@[simp] lemma logRead_reads (st : ScanState) (r : String) : (logRead st r).reads = st.reads ++ [r] := rfl

@[simp] lemma withHashes_fileHashes (st : ScanState) (h : List (String × List String)) : (withHashes st h).fileHashes = h := rfl

@[simp] lemma withHashes_ticks (st : ScanState) (h : List (String × List String)) : (withHashes st h).ticks = st.ticks := rfl

@[simp] lemma withHashes_reads (st : ScanState) (h : List (String × List String)) : (withHashes st h).reads = st.reads := rfl

/-! ### Path and extension lemmas -/

lemma lastComponent_append (xs ys : List Char) :
    lastComponent (xs ++ '/' :: ys) = lastComponent ys := by
  unfold lastComponent
  rw [List.foldl_append, List.foldl_cons]
  simp

/-- The extension of a joined path `p ++ "/" ++ nm` is the extension of the
entry name alone: `path.extname` only looks at the basename. -/
lemma extOf_append (p nm : String) : extOf (p ++ "/" ++ nm) = extOf nm := by
  have h : (p ++ "/" ++ nm).toList = p.toList ++ '/' :: nm.toList := by
    simp [String.toList]
  unfold extOf
  rw [h, lastComponent_append]

/-! ### Check-passing lemmas -/

/-- When no exclusion marker matches and no budget is exhausted, the entry
checks fall through and issue exactly the `existsSync` read. -/
lemma entryChecks_pass (ctx : ScanCtx) (dirPath : String) (d maxD : Int)
    (start : Nat) (maxF fp : Int) (st : ScanState)
    (hm1 : includesStr dirPath "node_modules" = false)
    (hm2 : includesStr dirPath ".git" = false)
    (ht : ctx.clock st.ticks - start ≤ MAX_EXECUTION_TIME_MS)
    (hf : fp < maxF) (hd : d ≤ maxD) :
    entryChecks ctx dirPath d maxD start maxF fp st =
      (none, logRead (tickSt st) ("exists:" ++ dirPath)) := by
  unfold entryChecks
  rw [hm1, hm2]
  have h1 : ¬ (MAX_EXECUTION_TIME_MS < ctx.clock st.ticks - start) := not_lt.mpr ht
  have h2 : ¬ (maxF ≤ fp) := not_le.mpr hf
  have h3 : ¬ (maxD < d) := not_lt.mpr hd
  simp [h1, h2, h3]

/-- When time and the file count are still within budget, the per-entry
re-checks pass, consuming exactly one `Date.now()` call. -/
lemma afterChecks_pass (ctx : ScanCtx) (dirPath : String) (start : Nat)
    (maxF fp : Int) (st : ScanState)
    (ht : ctx.clock st.ticks - start ≤ MAX_EXECUTION_TIME_MS)
    (hf : fp < maxF) :
    afterChecks ctx dirPath start maxF fp st = (none, tickSt st) := by
  unfold afterChecks
  have h1 : ¬ (MAX_EXECUTION_TIME_MS < ctx.clock st.ticks - start) := not_lt.mpr ht
  have h2 : ¬ (maxF ≤ fp) := not_le.mpr hf
  simp [h1, h2]

/-! ### Concrete scan fixtures -/

/-- A scan context with a frozen clock (no time budget ever trips) and a toy
injective-on-lengths digest standing in for MD5. -/
def ctxConst : ScanCtx := ⟨fun _ => 0, fun c => "h" ++ toString c.length⟩

/-- Failing input for the shared-budget claim: a root with a subdirectory of
two files followed by an empty file, scanned with `maxFiles = 3`. -/
def treeC1 : FSEntry :=
  .dir "root" none (.cons
    (.dir "d1" none (.cons (.file "f1.bin" [1] none) (.cons (.file "f2.bin" [1] none) .nil)))
    (.cons (.file "f3.txt" [] none) .nil))

/-- A directory with a single nonempty allow-listed file: no findings and no
duplicates. -/
def treeC8 : FSEntry := .dir "r" none (.cons (.file "a.txt" [1] none) .nil)

/-- A directory with a single empty allow-listed file: exactly one finding. -/
def treeW8 : FSEntry := .dir "r" none (.cons (.file "e.txt" [] none) .nil)

/-! ### Claim C5: exclusion markers -/

/-- C5: for every path whose string contains `node_modules` or `.git` as a
substring, the walk returns an empty finding list and leaves the scan state
untouched: no descent, no filesystem read, not even a `Date.now()` call. The
test is plain substring containment on the full path, not a component-exact
match. -/
theorem C5_exclusion_substring (ctx : ScanCtx) (p : String) (e? : Option FSEntry)
    (d maxD : Int) (start : Nat) (maxF fp : Int) (st : ScanState)
    (h : includesStr p "node_modules" = true ∨ includesStr p ".git" = true) :
    findUselessFiles ctx p e? d maxD start maxF fp st = (.ok [], st) := by
  have hcond : (includesStr p "node_modules" || includesStr p ".git") = true := by
    rcases h with h | h <;> simp [h]
  cases e? with
  | none => simp [findUselessFiles, entryChecks, hcond]
  | some e => cases e <;> simp [findUselessFiles, walkD, entryChecks, hcond]

/-- C5 witness: `repo/.github` contains `.git` only as a substring (the path
has no `.git` component), yet the walk is excluded and issues no reads. -/
theorem C5_exclusion_substring_witness :
    includesStr "repo/.github" ".git" = true ∧
    findUselessFiles ctxConst "repo/.github" (some treeC8) 0 10 0 1000 0 ⟨[], [], 1⟩ =
      (.ok [], ⟨[], [], 1⟩) :=
  ⟨by decide,
   C5_exclusion_substring ctxConst "repo/.github" (some treeC8) 0 10 0 1000 0 ⟨[], [], 1⟩
     (Or.inr (by decide))⟩

/-! ### Claim C4: limit clamping -/

/-- C4: a requested `maxDepth` above 10 is silently clamped to 10 and a
requested `maxFiles` above 1000 is silently clamped to 1000: the tool call
behaves exactly as the call with the clamped value, so no error is produced
for out-of-range input and the scan runs with the clamped limits. -/
theorem C4_limits_clamped :
    (∀ (ctx : ScanCtx) (dir : String) (root? : Option FSEntry) (d f : Int)
        (g : List (String × List String)), 10 < d →
        findUselessFilesTool ctx dir root? d f g = findUselessFilesTool ctx dir root? 10 f g)
    ∧ (∀ (ctx : ScanCtx) (dir : String) (root? : Option FSEntry) (d f : Int)
        (g : List (String × List String)), 1000 < f →
        findUselessFilesTool ctx dir root? d f g = findUselessFilesTool ctx dir root? d 1000 g) := by
  constructor
  · intro ctx dir root? d f g hd
    have h1 : min d MAX_DEPTH = min (10 : Int) MAX_DEPTH := by
      rw [show MAX_DEPTH = (10 : Int) from rfl, min_self, min_eq_right hd.le]
    unfold findUselessFilesTool
    rw [h1]
  · intro ctx dir root? d f g hf
    have h2 : min f MAX_FILES_TO_PROCESS = min (1000 : Int) MAX_FILES_TO_PROCESS := by
      rw [show MAX_FILES_TO_PROCESS = (1000 : Int) from rfl, min_self, min_eq_right hf.le]
    unfold findUselessFilesTool
    rw [h2]

/-- C4 witness: a request with `maxDepth = 15` and `maxFiles = 2000` scans
exactly like the clamped requests. -/
theorem C4_limits_clamped_witness :
    findUselessFilesTool ctxConst "r" (some treeC8) 15 2000 [] =
        findUselessFilesTool ctxConst "r" (some treeC8) 10 2000 [] ∧
    findUselessFilesTool ctxConst "r" (some treeC8) 15 2000 [] =
        findUselessFilesTool ctxConst "r" (some treeC8) 15 1000 [] :=
  ⟨C4_limits_clamped.1 ctxConst "r" (some treeC8) 15 2000 [] (by decide),
   C4_limits_clamped.2 ctxConst "r" (some treeC8) 15 2000 [] (by decide)⟩

/-! ### Claim C9: per-scan index reset -/

/-- C9: running the tool twice in succession on the same unchanged tree (same
clock behaviour) yields identical response texts: the process-global duplicate
index is cleared at the start of every call, so the state left behind by the
first scan cannot influence the second. -/
theorem C9_rescan_identical (ctx : ScanCtx) (dir : String) (root? : Option FSEntry)
    (d f : Int) (g0 : List (String × List String)) :
    (findUselessFilesTool ctx dir root? d f
        (findUselessFilesTool ctx dir root? d f g0).2).1
      = (findUselessFilesTool ctx dir root? d f g0).1 := rfl

/-! ### Claim C6: nonexistent root is terminal -/

/-- C6: when the root directory does not exist at the initial existence check
(and no earlier check intercepts the visit: the path carries no exclusion
marker, the first clock reading is within the time budget, and the clamped
file and depth limits are nontrivial), the scan fails terminally: the response
is exactly the single text block `Error scanning directory: <message>`, and the
duplicate index is left empty, so there are no findings and no duplicate
relations. -/
theorem C6_missing_root_terminal (ctx : ScanCtx) (dir : String) (d f : Int)
    (g : List (String × List String))
    (hm1 : includesStr dir "node_modules" = false)
    (hm2 : includesStr dir ".git" = false)
    (ht : ctx.clock 1 - ctx.clock 0 ≤ MAX_EXECUTION_TIME_MS)
    (hf : (0 : Int) < min f MAX_FILES_TO_PROCESS)
    (hd : (0 : Int) ≤ min d MAX_DEPTH) :
    findUselessFilesTool ctx dir none d f g =
      (["Error scanning directory: " ++ ("Directory does not exist: " ++ dir)], []) := by
  unfold findUselessFilesTool findUselessFiles
  simp only [entryChecks_pass ctx dir 0 (min d MAX_DEPTH) (ctx.clock 0)
      (min f MAX_FILES_TO_PROCESS) 0 ⟨[], [], 1⟩ hm1 hm2 ht hf hd,
    logRead_fileHashes, tickSt_fileHashes]

/-- C6 witness: scanning the nonexistent path `missing` degrades to the single
error block with an empty duplicate index. -/
theorem C6_missing_root_terminal_witness :
    findUselessFilesTool ctxConst "missing" none 5 1000 [] =
      (["Error scanning directory: " ++ ("Directory does not exist: " ++ "missing")], []) :=
  C6_missing_root_terminal ctxConst "missing" 5 1000 [] (by decide) (by decide)
    (by decide) (by decide) (by decide)

/-! ### Claim C1: the file budget is not a shared counter -/

/-- C1: evaluation of the scanner at a failing input for the shared-budget
claim. With `maxFiles = 3`, the subdirectory visit of `root/d1` already
processes three entries (`d1`, `f1.bin`, `f2.bin`) and emits
`max files limit reached during processing`; because `filesProcessed` is
passed by value, the parent frame's counter is still 1, so the scan then
processes a fourth entry `root/f3.txt`, issuing fresh `lstatSync` and hash
reads (visible at the end of the read log) and emitting its `empty file`
finding after the limit finding — contradicting the claim that once any limit
is exceeded no further filesystem reads are issued beyond unwinding the loop
in progress. -/
theorem C1_budget_not_shared_eval :
    (findUselessFilesTool ctxConst "root" (some treeC1) 5 3 []).1 =
      ["Found 2 potentially useless files/directories in: root",
       "root/d1 (max files limit reached during processing)\nroot/f3.txt (empty file)",
       "Found 0 duplicate files in: root",
       ""] ∧
    findUselessFiles ctxConst "root" (some treeC1) 0 5 0 3 0 ⟨[], [], 1⟩ =
      (.ok ["root/d1 (max files limit reached during processing)",
            "root/f3.txt (empty file)"],
       ⟨[("h0", ["root/f3.txt"])],
        ["exists:root", "readdir:root", "lstat:root/d1", "exists:root/d1",
         "readdir:root/d1", "lstat:root/d1/f1.bin", "lstat:root/d1/f2.bin",
         "lstat:root/f3.txt", "lstat:root/f3.txt", "read:root/f3.txt"],
        7⟩) :=
  ⟨by rfl, by rfl⟩

/-! ### Claim C8: response shape -/

/-- C8 counterexample: a scan that does not fail terminally but finds nothing
useless returns a single `No useless files found` text block, not a list of
four blocks. -/
theorem C8_counterexample_single_block :
    findUselessFilesTool ctxConst "r" (some treeC8) 5 1000 [] =
      (["No useless files found in: r"], [("h1", ["r/a.txt"])]) ∧
    (findUselessFilesTool ctxConst "r" (some treeC8) 5 1000 []).1.length = 1 :=
  ⟨by rfl, by rfl⟩

/-- C8 (amended): for every scan that does not fail terminally and whose
findings and duplicate relations are not both empty, the response is a flat
ordered list of four text blocks: the useless-item count summary, the findings
joined by line breaks, the duplicate count summary, and the duplicate
relations joined by line breaks. -/
theorem C8_response_four_blocks (ctx : ScanCtx) (dir : String)
    (root? : Option FSEntry) (d f : Int) (g : List (String × List String))
    (fs : List String) (st : ScanState)
    (hw : findUselessFiles ctx dir root? 0 (min d MAX_DEPTH) (ctx.clock 0)
        (min f MAX_FILES_TO_PROCESS) 0 ⟨[], [], 1⟩ = (.ok fs, st))
    (hne : fs ≠ [] ∨ findDuplicateFiles COMMON_FILE_EXTENSIONS st.fileHashes ≠ []) :
    (findUselessFilesTool ctx dir root? d f g).1 =
      ["Found " ++ toString fs.length ++ " potentially useless files/directories in: " ++ dir,
       String.intercalate "\n" fs,
       "Found " ++ toString (findDuplicateFiles COMMON_FILE_EXTENSIONS st.fileHashes).length
         ++ " duplicate files in: " ++ dir,
       String.intercalate "\n" (findDuplicateFiles COMMON_FILE_EXTENSIONS st.fileHashes)] := by
  have hcond : (fs.length == 0
      && (findDuplicateFiles COMMON_FILE_EXTENSIONS st.fileHashes).length == 0) = false := by
    rcases hne with h | h <;>
      simp [beq_iff_eq, List.length_eq_zero, h]
  unfold findUselessFilesTool
  simp only [hw, hcond, Bool.false_eq_true, if_false]

/-- C8 (amended) witness: a scan finding one empty file yields exactly the four
blocks. -/
theorem C8_response_four_blocks_witness :
    (findUselessFilesTool ctxConst "r" (some treeW8) 5 1000 []).1 =
      ["Found 1 potentially useless files/directories in: r",
       "r/e.txt (empty file)",
       "Found 0 duplicate files in: r",
       ""] :=
  C8_response_four_blocks ctxConst "r" (some treeW8) 5 1000 []
    ["r/e.txt (empty file)"]
    ⟨[("h0", ["r/e.txt"])],
     ["exists:r", "readdir:r", "lstat:r/e.txt", "lstat:r/e.txt", "read:r/e.txt"], 3⟩
    (by rfl) (Or.inl (by decide))

/-! ### Claim C2: duplicate derivation -/

/-- Folding a push-into-accumulator loop is the same as appending the
filter-mapped list. -/
lemma foldl_snoc_filterMap {α β : Type} (P : α → Bool) (g : α → β) (l : List α)
    (init : List β) :
    l.foldl (fun acc d => if P d then acc ++ [g d] else acc) init
      = init ++ l.filterMap (fun d => if P d then some (g d) else none) := by
  induction l generalizing init with
  | nil => simp
  | cons a t ih => by_cases h : P a <;> simp [h, ih, List.append_assoc]

/-- C2: `findDuplicateFiles` computes exactly the specification's
`deriveGroups`: for every content identity whose path list has at least two
entries, the first-inserted path is the original and each later path yields one
`<dupe> (duplicate of <original>)` relation, emitted iff the allow-list is
empty (no filtering) or contains both the original's and the duplicate's
lowercased extensions, in index insertion order. -/
theorem C2_findDuplicateFiles_derives_groups (incl : List String)
    (idx : List (String × List String)) :
    findDuplicateFiles incl idx = deriveGroups incl idx := by
  unfold findDuplicateFiles
  suffices h : ∀ (idx' : List (String × List String)) (init : List String),
      List.foldl (fun duplicates grp =>
        match grp.2 with
        | original :: dupe :: rest =>
          (dupe :: rest).foldl (fun acc d =>
            if incl.length == 0
                || (incl.contains (extOf original) && incl.contains (extOf d)) then
              acc ++ [d ++ " (duplicate of " ++ original ++ ")"]
            else acc) duplicates
        | _ => duplicates) init idx' = init ++ deriveGroups incl idx' by
    simpa using h idx []
  intro idx'
  induction idx' with
  | nil => intro init; simp [deriveGroups]
  | cons grp t ih =>
    intro init
    obtain ⟨hsh, paths⟩ := grp
    rcases paths with _ | ⟨o, _ | ⟨d0, rest⟩⟩
    · rw [List.foldl_cons]
      dsimp only
      rw [ih]
      simp [deriveGroups]
    · rw [List.foldl_cons]
      dsimp only
      rw [ih]
      simp [deriveGroups]
    · rw [List.foldl_cons]
      dsimp only
      rw [foldl_snoc_filterMap, ih]
      simp [deriveGroups, List.append_assoc]

/-- Opening a directory visit when every entry check passes and the listing is
nonempty and within the fan-out cap: the visit is the loop over the children,
run after the `existsSync` and `readdirSync` reads. -/
lemma walkD_go (ctx : ScanCtx) (p : String) (cs : FSList) (d maxD : Int)
    (start : Nat) (maxF fp : Int) (st : ScanState)
    (hm1 : includesStr p "node_modules" = false)
    (hm2 : includesStr p ".git" = false)
    (ht : ctx.clock st.ticks - start ≤ MAX_EXECUTION_TIME_MS)
    (hf : fp < maxF) (hd : d ≤ maxD)
    (h0 : FSList.length cs ≠ 0) (h100 : ¬ MAX_ITEMS_PER_DIR < FSList.length cs) :
    walkD ctx p none cs d maxD start maxF fp st =
      walkLoop ctx p MAX_ITEMS_PER_DIR cs d maxD start maxF fp
        (logRead (logRead (tickSt st) ("exists:" ++ p)) ("readdir:" ++ p)) := by
  unfold walkD
  rw [entryChecks_pass ctx p d maxD start maxF fp st hm1 hm2 ht hf hd]
  simp [h0, h100]

/-! ### Loop step lemmas (definitional unfoldings of `walkLoop`) -/

/-- An exhausted listing yields nothing. -/
lemma walkLoop_nil (ctx : ScanCtx) (p : String) (k : Nat) (d maxD : Int)
    (start : Nat) (maxF fp : Int) (st : ScanState) :
    walkLoop ctx p k .nil d maxD start maxF fp st = ([], st) := by
  cases k <;> rfl

/-- An exhausted fan-out budget yields nothing. -/
lemma walkLoop_zero (ctx : ScanCtx) (p : String) (items : FSList) (d maxD : Int)
    (start : Nat) (maxF fp : Int) (st : ScanState) :
    walkLoop ctx p 0 items d maxD start maxF fp st = ([], st) := by
  cases items <;> rfl

/-- One loop step over an entry whose `lstatSync` throws: one `error:` finding,
no budget re-check, and the loop continues. -/
lemma walkLoop_cons_statErr (ctx : ScanCtx) (p : String) (k : Nat) (nm msg : String)
    (rest : FSList) (d maxD : Int) (start : Nat) (maxF fp : Int) (st : ScanState) :
    walkLoop ctx p (k + 1) (.cons (.statErr nm msg) rest) d maxD start maxF fp st =
      (let fp' := fp + 1
       let st' := logRead st ("lstat:" ++ (p ++ "/" ++ nm))
       let r := walkLoop ctx p k rest d maxD start maxF fp' st'
       ((p ++ "/" ++ nm ++ " (error: " ++ msg ++ ")") :: r.1, r.2)) := rfl

/-- One loop step over a subdirectory: the recursive visit (`walkD`), then the
budget re-checks, which either break with one more finding or continue. -/
lemma walkLoop_cons_dir (ctx : ScanCtx) (p : String) (k : Nat) (nm : String)
    (le : Option String) (cs : FSList) (rest : FSList)
    (d maxD : Int) (start : Nat) (maxF fp : Int) (st : ScanState) :
    walkLoop ctx p (k + 1) (.cons (.dir nm le cs) rest) d maxD start maxF fp st =
      (let fp' := fp + 1
       let st' := logRead st ("lstat:" ++ (p ++ "/" ++ nm))
       let sub := walkD ctx (p ++ "/" ++ nm) le cs (d + 1) maxD start maxF fp' st'
       let ac := afterChecks ctx p start maxF fp' sub.2
       match ac.1 with
       | some f => (sub.1 ++ [f], ac.2)
       | none =>
         let r := walkLoop ctx p k rest d maxD start maxF fp' ac.2
         (sub.1 ++ r.1, r.2)) := rfl

/-- One loop step over a regular file: the empty-file policy, the extension
filter, hashing with its error policy, then the budget re-checks. -/
lemma walkLoop_cons_file (ctx : ScanCtx) (p : String) (k : Nat) (nm : String)
    (content : List Nat) (re : Option String) (rest : FSList)
    (d maxD : Int) (start : Nat) (maxF fp : Int) (st : ScanState) :
    walkLoop ctx p (k + 1) (.cons (.file nm content re) rest) d maxD start maxF fp st =
      (let itemPath := p ++ "/" ++ nm
       let fp' := fp + 1
       let st' := logRead st ("lstat:" ++ itemPath)
       let pre := if content.length = 0 then [itemPath ++ " (empty file)"] else []
       if COMMON_FILE_EXTENSIONS.contains (extOf itemPath) then
         let hr := calculateFileHash ctx itemPath (.file nm content re) st'
         match hr.1 with
         | .error e =>
           let r := walkLoop ctx p k rest d maxD start maxF fp' hr.2
           ((pre ++ [itemPath ++ " (error: " ++ e ++ ")"]) ++ r.1, r.2)
         | .ok h =>
           let st2 := if h = "" then hr.2 else withHashes hr.2 (insertHash hr.2.fileHashes h itemPath)
           let ac := afterChecks ctx p start maxF fp' st2
           match ac.1 with
           | some f => (pre ++ [f], ac.2)
           | none =>
             let r := walkLoop ctx p k rest d maxD start maxF fp' ac.2
             (pre ++ r.1, r.2)
       else
         let ac := afterChecks ctx p start maxF fp' st'
         match ac.1 with
         | some f => (pre ++ [f], ac.2)
         | none =>
           let r := walkLoop ctx p k rest d maxD start maxF fp' ac.2
           (pre ++ r.1, r.2)) := rfl

/-- One loop step over a non-regular entry (`lstat` succeeds, not a file, not a
directory): same policy as a file, but hashing returns the empty identity. -/
lemma walkLoop_cons_other (ctx : ScanCtx) (p : String) (k : Nat) (nm : String)
    (sz : Nat) (rest : FSList)
    (d maxD : Int) (start : Nat) (maxF fp : Int) (st : ScanState) :
    walkLoop ctx p (k + 1) (.cons (.other nm sz) rest) d maxD start maxF fp st =
      (let itemPath := p ++ "/" ++ nm
       let fp' := fp + 1
       let st' := logRead st ("lstat:" ++ itemPath)
       let pre := if sz = 0 then [itemPath ++ " (empty file)"] else []
       if COMMON_FILE_EXTENSIONS.contains (extOf itemPath) then
         let hr := calculateFileHash ctx itemPath (.other nm sz) st'
         match hr.1 with
         | .error e =>
           let r := walkLoop ctx p k rest d maxD start maxF fp' hr.2
           ((pre ++ [itemPath ++ " (error: " ++ e ++ ")"]) ++ r.1, r.2)
         | .ok h =>
           let st2 := if h = "" then hr.2 else withHashes hr.2 (insertHash hr.2.fileHashes h itemPath)
           let ac := afterChecks ctx p start maxF fp' st2
           match ac.1 with
           | some f => (pre ++ [f], ac.2)
           | none =>
             let r := walkLoop ctx p k rest d maxD start maxF fp' ac.2
             (pre ++ r.1, r.2)
       else
         let ac := afterChecks ctx p start maxF fp' st'
         match ac.1 with
         | some f => (pre ++ [f], ac.2)
         | none =>
           let r := walkLoop ctx p k rest d maxD start maxF fp' ac.2
           (pre ++ r.1, r.2)) := rfl

/-! ### Claim C3: hashing error contract -/

/-- C3: the hashing primitive returns the empty identity (never an error) for
a path that is not a regular file at read time, and propagates a stream read
error as a failure; in the walker, the empty identity is never inserted into
the duplicate index, and a hash failure becomes a per-entry `error: <message>`
finding for that file while the scan itself still returns successfully (no
terminal error). The third conjunct runs the walker over a directory holding a
non-regular entry `a.txt` and a file `b.txt` whose read fails: the only finding
is the per-entry error for `b.txt`, the result is `.ok`, and the duplicate
index is unchanged. -/
theorem C3_hash_error_contract :
    (∀ (ctx : ScanCtx) (q nm : String) (sz : Nat) (st : ScanState),
      calculateFileHash ctx q (.other nm sz) st = (.ok "", logRead st ("lstat:" ++ q)))
    ∧ (∀ (ctx : ScanCtx) (q nm : String) (content : List Nat) (msg : String) (st : ScanState),
      calculateFileHash ctx q (.file nm content (some msg)) st
        = (.error msg, logRead (logRead st ("lstat:" ++ q)) ("read:" ++ q)))
    ∧ (∀ (ctx : ScanCtx) (p nm : String) (sz : Nat) (content : List Nat)
        (msg : String) (start : Nat) (st : ScanState),
        includesStr p "node_modules" = false →
        includesStr p ".git" = false →
        (∀ k, ctx.clock k - start ≤ MAX_EXECUTION_TIME_MS) →
        sz ≠ 0 → content ≠ [] →
        ∃ st' : ScanState,
          findUselessFiles ctx p
              (some (.dir nm none (.cons (.other "a.txt" sz)
                (.cons (.file "b.txt" content (some msg)) .nil))))
              0 5 start 1000 0 st
            = (.ok [p ++ "/" ++ "b.txt" ++ " (error: " ++ msg ++ ")"], st')
          ∧ st'.fileHashes = st.fileHashes) := by
  refine ⟨fun ctx q nm sz st => rfl, fun ctx q nm content msg st => rfl, ?_⟩
  intro ctx p nm sz content msg start st hm1 hm2 hta hsz hc
  have hA : COMMON_FILE_EXTENSIONS.contains (extOf "a.txt") = true := rfl
  have hB : COMMON_FILE_EXTENSIONS.contains (extOf "b.txt") = true := rfl
  have hszl : content.length ≠ 0 := fun h => hc (List.length_eq_zero.mp h)
  have hf1 : ((0 : Int) + 1) < 1000 := by decide
  have hf2 : ((0 : Int) + 1 + 1) < 1000 := by decide
  simp only [findUselessFiles]
  simp only [walkD_go ctx p
      (FSList.cons (FSEntry.other "a.txt" sz)
        (FSList.cons (FSEntry.file "b.txt" content (some msg)) FSList.nil))
      0 5 start 1000 0 st hm1 hm2 (hta _) (by decide) (by decide)
      (by simp [FSList.length]) (by simp [FSList.length, MAX_ITEMS_PER_DIR])]
  simp only [show MAX_ITEMS_PER_DIR = 99 + 1 from rfl, walkLoop_cons_other]
  simp only [extOf_append, hA, hB, hsz, hszl, hf1, hf2, calculateFileHash,
    afterChecks_pass, hta, logRead_ticks, tickSt_ticks, if_true, if_false, ite_false,
    ite_true, walkLoop_cons_file, walkLoop_nil, List.nil_append, List.append_nil]
  exact ⟨_, rfl, by simp⟩

/-- C3 witness: the contract evaluated with a concrete context, state, size and
error message. -/
theorem C3_hash_error_contract_witness :
    ∃ st' : ScanState,
      findUselessFiles ctxConst "r"
          (some (.dir "d" none (.cons (.other "a.txt" 5)
            (.cons (.file "b.txt" [1] (some "EIO")) .nil))))
          0 5 0 1000 0 ⟨[], [], 1⟩
        = (.ok ["r" ++ "/" ++ "b.txt" ++ " (error: " ++ "EIO" ++ ")"], st')
      ∧ st'.fileHashes = ([] : List (String × List String)) :=
  C3_hash_error_contract.2.2 ctxConst "r" "d" 5 [1] "EIO" 0 ⟨[], [], 1⟩
    (by decide) (by decide) (fun _ => Nat.zero_le _) (by decide) (by decide)

/-! ### Claim C7: per-directory fan-out cap -/

/-- Length of a concatenated listing. -/
lemma FSList.length_append : ∀ (a b : FSList),
    (FSList.append a b).length = a.length + b.length
  | .nil, b => by simp [FSList.append, FSList.length]
  | .cons x xs, b => by
    simp [FSList.append, FSList.length, FSList.length_append xs b]
    omega

/-- Entries beyond the loop budget are never looked at: running the loop with
budget `k` over `cs1 ++ cs2`, where `cs1` holds exactly `k` entries, is the
same as running it over `cs1` alone — same findings, same state, no reads of
the skipped entries. -/
lemma walkLoop_append (ctx : ScanCtx) (p : String) (cs2 : FSList)
    (d maxD : Int) (start : Nat) (maxF : Int) :
    ∀ (k : Nat) (cs1 : FSList) (fp : Int) (st : ScanState),
      FSList.length cs1 = k →
      walkLoop ctx p k (FSList.append cs1 cs2) d maxD start maxF fp st
        = walkLoop ctx p k cs1 d maxD start maxF fp st := by
  intro k
  induction k with
  | zero =>
    intro cs1 fp st hlen
    rw [walkLoop_zero, walkLoop_zero]
  | succ k ih =>
    intro cs1 fp st hlen
    cases cs1 with
    | nil => simp [FSList.length] at hlen
    | cons a tl =>
      have hlen' : FSList.length tl = k := by
        simpa [FSList.length] using hlen
      have ih' : ∀ (fp : Int) (st : ScanState),
          walkLoop ctx p k (FSList.append tl cs2) d maxD start maxF fp st
            = walkLoop ctx p k tl d maxD start maxF fp st :=
        fun fp st => ih tl fp st hlen'
      cases a with
      | file nm content re =>
        rw [show FSList.append (.cons (.file nm content re) tl) cs2
              = .cons (.file nm content re) (FSList.append tl cs2) from rfl]
        rw [walkLoop_cons_file, walkLoop_cons_file]
        simp only [ih']
      | dir nm le cs =>
        rw [show FSList.append (.cons (.dir nm le cs) tl) cs2
              = .cons (.dir nm le cs) (FSList.append tl cs2) from rfl]
        rw [walkLoop_cons_dir, walkLoop_cons_dir]
        simp only [ih']
      | other nm sz =>
        rw [show FSList.append (.cons (.other nm sz) tl) cs2
              = .cons (.other nm sz) (FSList.append tl cs2) from rfl]
        rw [walkLoop_cons_other, walkLoop_cons_other]
        simp only [ih']
      | statErr nm msg =>
        rw [show FSList.append (.cons (.statErr nm msg) tl) cs2
              = .cons (.statErr nm msg) (FSList.append tl cs2) from rfl]
        rw [walkLoop_cons_statErr, walkLoop_cons_statErr]
        simp only [ih']

/-- C7: visiting a directory whose listing splits as `cs1 ++ cs2` with `cs1`
holding exactly the cap (100 entries) and `cs2` nonempty (so the listing has
N > 100 entries) emits exactly one advisory finding
`limited scan: 100/N items` at the head of the directory's findings, processes
only the first 100 entries (the result is the loop over `cs1` alone), and
produces no finding and issues no filesystem read for any of the skipped
entries of `cs2`. -/
theorem C7_fanout_capped (ctx : ScanCtx) (p nm : String) (cs1 cs2 : FSList)
    (d maxD : Int) (start : Nat) (maxF fp : Int) (st : ScanState)
    (h1 : FSList.length cs1 = MAX_ITEMS_PER_DIR) (h2 : 0 < FSList.length cs2)
    (hm1 : includesStr p "node_modules" = false)
    (hm2 : includesStr p ".git" = false)
    (ht : ctx.clock st.ticks - start ≤ MAX_EXECUTION_TIME_MS)
    (hf : fp < maxF) (hd : d ≤ maxD) :
    findUselessFiles ctx p (some (.dir nm none (FSList.append cs1 cs2)))
        d maxD start maxF fp st =
      (let st1 := logRead (logRead (tickSt st) ("exists:" ++ p)) ("readdir:" ++ p)
       let r := walkLoop ctx p MAX_ITEMS_PER_DIR cs1 d maxD start maxF fp st1
       (.ok ((p ++ " (limited scan: 100/"
          ++ toString (FSList.length (FSList.append cs1 cs2)) ++ " items)") :: r.1), r.2)) := by
  have hno : ¬ (MAX_ITEMS_PER_DIR + FSList.length cs2 = 0) := by
    simp [MAX_ITEMS_PER_DIR]
  have hyes : MAX_ITEMS_PER_DIR < MAX_ITEMS_PER_DIR + FSList.length cs2 := by
    omega
  simp only [findUselessFiles, walkD]
  simp only [entryChecks_pass ctx p d maxD start maxF fp st hm1 hm2 ht hf hd]
  simp only [FSList.length_append, h1, hno, hyes, if_true, if_false, ite_true, ite_false]
  rw [walkLoop_append ctx p cs2 d maxD start maxF MAX_ITEMS_PER_DIR cs1 fp _ h1]
  simp [List.singleton_append]

/-- A listing of exactly 100 dummy nonempty `.bin` files. -/
def csA : FSList :=
  FSList.ofList ((List.range 100).map (fun i => FSEntry.file ("f" ++ toString i ++ ".bin") [1] none))

/-- A listing of 50 further dummy files, all of which the capped scan skips. -/
def csB : FSList :=
  FSList.ofList ((List.range 50).map (fun i => FSEntry.file ("g" ++ toString i ++ ".bin") [1] none))

/-- C7 witness: a directory of 150 entries is scanned as its first 100 entries
plus the single `limited scan: 100/150 items` advisory. -/
theorem C7_fanout_capped_witness :
    findUselessFiles ctxConst "r" (some (.dir "d" none (FSList.append csA csB)))
        0 5 0 1000 0 ⟨[], [], 1⟩ =
      (let st1 := logRead (logRead (tickSt ⟨[], [], 1⟩) ("exists:" ++ "r")) ("readdir:" ++ "r")
       let r := walkLoop ctxConst "r" MAX_ITEMS_PER_DIR csA 0 5 0 1000 0 st1
       (.ok (("r" ++ " (limited scan: 100/"
          ++ toString (FSList.length (FSList.append csA csB)) ++ " items)") :: r.1), r.2)) :=
  C7_fanout_capped ctxConst "r" "d" csA csB 0 5 0 1000 0 ⟨[], [], 1⟩
    (by decide) (by decide) (by decide) (by decide) (by decide) (by decide) (by decide)

/-! ### Claim C10: empty files and the duplicate index -/

/-- C10 counterexample: a zero-byte regular file with an allow-listed
extension whose content stream fails to read (`a.txt`, error `EIO`) is visited
and flagged `(empty file)`, yet it is never inserted into the duplicate index
(the insert is unreachable after the hash failure) and no duplicate relation
is reported even though a second zero-byte allow-listed file `b.txt` is
visited in the same scan: the index ends up holding only `b.txt` and the
derived duplicate list is empty, contradicting the claim as stated. -/
theorem C10_counterexample_unreadable_empty_file :
    findUselessFiles ctxConst "r"
        (some (.dir "d" none (.cons (.file "a.txt" [] (some "EIO"))
          (.cons (.file "b.txt" [] none) .nil))))
        0 5 0 1000 0 ⟨[], [], 1⟩
      = (.ok ["r/a.txt (empty file)", "r/a.txt (error: EIO)", "r/b.txt (empty file)"],
         ⟨[("h0", ["r/b.txt"])],
          ["exists:r", "readdir:r", "lstat:r/a.txt", "lstat:r/a.txt", "read:r/a.txt",
           "lstat:r/b.txt", "lstat:r/b.txt", "read:r/b.txt"], 3⟩)
    ∧ findDuplicateFiles COMMON_FILE_EXTENSIONS [("h0", ["r/b.txt"])] = [] :=
  ⟨by rfl, by rfl⟩

/-- C10 (amended): every zero-byte regular file with an allow-listed extension
whose content stream is read successfully is inserted into the duplicate index
under the digest of the empty byte stream, and each such file after the first
is reported as a duplicate of the first, besides its own `empty file` finding.
Three conjuncts:
1. one loop step over any successfully-read zero-byte allow-listed file, at any
   position in any directory, in any state and under any budgets, emits the
   `(empty file)` finding and appends the file's path to the group of
   `hashFn []` in the index before the budget re-checks run — so every such
   visited file is inserted, whether or not the loop then stops;
2. for any index whose group `h` lists `pa` first, every later path of the
   group with allow-listed extensions yields the relation
   `<q> (duplicate of <pa>)` in the derived duplicate list;
3. end to end, a scan of two successfully-read empty `.txt` files yields both
   `empty file` findings, the two-path group under `hashFn []`, and exactly the
   one relation naming the second a duplicate of the first. -/
theorem C10_successful_empty_files_grouped :
    (∀ (ctx : ScanCtx) (p nm : String) (k : Nat) (rest : FSList)
        (d maxD : Int) (start : Nat) (maxF fp : Int) (st : ScanState),
      COMMON_FILE_EXTENSIONS.contains (extOf nm) = true →
      ctx.hashFn [] ≠ "" →
      walkLoop ctx p (k + 1) (.cons (.file nm [] none) rest) d maxD start maxF fp st =
        (let pa := p ++ "/" ++ nm
         let stI := withHashes
            (logRead (logRead (logRead st ("lstat:" ++ pa)) ("lstat:" ++ pa)) ("read:" ++ pa))
            (insertHash st.fileHashes (ctx.hashFn []) pa)
         let ac := afterChecks ctx p start maxF (fp + 1) stI
         match ac.1 with
         | some f => ([pa ++ " (empty file)", f], ac.2)
         | none =>
           let r := walkLoop ctx p k rest d maxD start maxF (fp + 1) ac.2
           ((pa ++ " (empty file)") :: r.1, r.2)))
    ∧ (∀ (incl : List String) (idx : List (String × List String))
        (h pa : String) (ps : List String),
      (h, pa :: ps) ∈ idx →
      (∀ q, q ∈ pa :: ps → incl.contains (extOf q) = true) →
      ∀ q, q ∈ ps → (q ++ " (duplicate of " ++ pa ++ ")") ∈ findDuplicateFiles incl idx)
    ∧ (∀ (ctx : ScanCtx) (p nm : String) (r : List String) (t : Nat) (start : Nat),
      includesStr p "node_modules" = false →
      includesStr p ".git" = false →
      (∀ k, ctx.clock k - start ≤ MAX_EXECUTION_TIME_MS) →
      ctx.hashFn [] ≠ "" →
      ∃ st' : ScanState,
        findUselessFiles ctx p
            (some (.dir nm none (.cons (.file "a.txt" [] none)
              (.cons (.file "b.txt" [] none) .nil))))
            0 5 start 1000 0 ⟨[], r, t⟩
          = (.ok [p ++ "/" ++ "a.txt" ++ " (empty file)", p ++ "/" ++ "b.txt" ++ " (empty file)"], st')
        ∧ st'.fileHashes = [(ctx.hashFn [], [p ++ "/" ++ "a.txt", p ++ "/" ++ "b.txt"])]
        ∧ findDuplicateFiles COMMON_FILE_EXTENSIONS st'.fileHashes
            = [p ++ "/" ++ "b.txt" ++ " (duplicate of " ++ (p ++ "/" ++ "a.txt") ++ ")"]) := by
  refine ⟨?_, ?_, ?_⟩
  · intro ctx p nm k rest d maxD start maxF fp st hext hh
    rw [walkLoop_cons_file]
    simp only [extOf_append, hext, hh, calculateFileHash, List.length_nil,
      eq_self_iff_true, if_true, ite_true, if_false, ite_false,
      logRead_fileHashes, List.singleton_append, List.nil_append]
  · intro incl idx h pa ps hmem hexts q hq
    rw [C2_findDuplicateFiles_derives_groups]
    unfold deriveGroups
    rw [List.mem_flatten]
    refine ⟨_, List.mem_map_of_mem _ hmem, ?_⟩
    cases ps with
    | nil => cases hq
    | cons d0 rest =>
      dsimp only
      rw [List.mem_filterMap]
      refine ⟨q, hq, ?_⟩
      rw [hexts pa (List.mem_cons_self _ _), hexts q (List.mem_cons_of_mem _ hq)]
      simp
  · intro ctx p nm r t start hm1 hm2 hta hh
    have hA : COMMON_FILE_EXTENSIONS.contains (extOf "a.txt") = true := rfl
    have hB : COMMON_FILE_EXTENSIONS.contains (extOf "b.txt") = true := rfl
    have hf1 : ((0 : Int) + 1) < 1000 := by decide
    have hf2 : ((0 : Int) + 1 + 1) < 1000 := by decide
    simp only [findUselessFiles]
    simp only [walkD_go ctx p
        (FSList.cons (FSEntry.file "a.txt" [] none)
          (FSList.cons (FSEntry.file "b.txt" [] none) FSList.nil))
        0 5 start 1000 0 ⟨[], r, t⟩ hm1 hm2 (hta _) (by decide) (by decide)
        (by simp [FSList.length]) (by simp [FSList.length, MAX_ITEMS_PER_DIR])]
    simp only [show MAX_ITEMS_PER_DIR = 99 + 1 from rfl, walkLoop_cons_file]
    simp only [extOf_append, hA, hB, hf1, hf2, calculateFileHash, hh,
      afterChecks_pass, hta, logRead_ticks, tickSt_ticks, logRead_fileHashes,
      tickSt_fileHashes, withHashes_fileHashes, insertHash,
      List.any_nil, List.any_cons, List.map_nil, List.map_cons, beq_self_eq_true,
      Bool.or_false, Bool.false_or, Bool.true_or, Bool.or_true, Bool.false_eq_true,
      List.length_nil, eq_self_iff_true, if_true, if_false, ite_false, ite_true,
      walkLoop_nil, List.nil_append, List.append_nil, List.cons_append,
      List.singleton_append]
    refine ⟨_, rfl, by simp, ?_⟩
    simp only [tickSt_fileHashes, withHashes_fileHashes, logRead_fileHashes]
    simp only [findDuplicateFiles, List.foldl_cons, List.foldl_nil]
    rw [extOf_append, extOf_append]
    simp only [hA, hB, Bool.and_self, Bool.true_and, Bool.and_true, Bool.or_true,
      if_true, ite_true, List.nil_append]

/-- C10 (amended) witness: the end-to-end conjunct evaluated with a concrete
context whose digest of the empty stream is the nonempty string `h0`. -/
theorem C10_successful_empty_files_grouped_witness :
    ∃ st' : ScanState,
      findUselessFiles ctxConst "r"
          (some (.dir "d" none (.cons (.file "a.txt" [] none)
            (.cons (.file "b.txt" [] none) .nil))))
          0 5 0 1000 0 ⟨[], [], 1⟩
        = (.ok ["r" ++ "/" ++ "a.txt" ++ " (empty file)", "r" ++ "/" ++ "b.txt" ++ " (empty file)"], st')
      ∧ st'.fileHashes = [(ctxConst.hashFn [], ["r" ++ "/" ++ "a.txt", "r" ++ "/" ++ "b.txt"])]
      ∧ findDuplicateFiles COMMON_FILE_EXTENSIONS st'.fileHashes
          = ["r" ++ "/" ++ "b.txt" ++ " (duplicate of " ++ ("r" ++ "/" ++ "a.txt") ++ ")"] :=
  C10_successful_empty_files_grouped.2.2 ctxConst "r" "d" [] 1 0 (by decide) (by decide)
    (fun _ => Nat.zero_le _) (by decide)
